import Mathlib

/-!
Verification development for the currency-data-pipeline repository.

The definitions below are a shallow embedding of the TypeScript sources:
* `src/lib/core/data-contracts.ts` — the data model,
* `src/lib/services/data.orchestrator.ts` — `DataOrchestrator.mergeData` and
  `DataOrchestrator.getStandardizedData` (cache, stale fallback, fetch loop),
* `src/lib/data-sources/base.data-source.ts` — `BaseDataSource.fetchStandardizedData`
  and `BaseDataSource.updateHealth`,
* the `SarfCurrencyAdapter.adapt` and `MockCommoditiesAdapter.adapt` adapters.

JavaScript numbers are modelled by `Int` (epoch milliseconds, latencies) and
`ℚ` (prices).  A JavaScript object used as a string-keyed record is modelled
by an insertion-ordered association list `List (String × α)` with the
JS-object invariant that keys are unique; `lookupRecord` models property
lookup and `recordSet` models property assignment (overwrite in place or
append).  Ambient effects are explicit parameters: `Date.now()` becomes an
`Int` argument and `Math.random()` becomes a supplied stream of rationals.
-/

/-- `RateType` from data-contracts.ts. -/
inductive RateType where
  | official
  | parallel_market
  | interbank
  | market
deriving DecidableEq

/-- `AssetType` from data-contracts.ts. -/
inductive AssetType where
  | currency
  | commodity
deriving DecidableEq

/-- `StandardizedRate` from data-contracts.ts. -/
structure StandardizedRate where
  buying : ℚ
  selling : ℚ
  midRate : ℚ
  unit : String
deriving DecidableEq

/-- `StandardizedHistoricalPoint` from data-contracts.ts. -/
structure StandardizedHistoricalPoint where
  timestamp : Int
  value : ℚ
deriving DecidableEq

/-- `StandardizedAsset` from data-contracts.ts.  The partial record
`rates: Partial<Record<RateType, StandardizedRate>>` is modelled as a
function into `Option`. -/
structure StandardizedAsset where
  identifier : String
  name : String
  type : AssetType
  source : String
  timestamp : Int
  rates : RateType → Option StandardizedRate
  historicalData : List StandardizedHistoricalPoint

/-- `StandardizedData` from data-contracts.ts: `assets` is a JS object keyed
by asset identifier, modelled as an insertion-ordered association list. -/
structure StandardizedData where
  assets : List (String × StandardizedAsset)

/-- JS property lookup `obj[key]` on a string-keyed record. -/
def lookupRecord {α : Type} : List (String × α) → String → Option α
  | [], _ => none
  | (k, v) :: rest, id => if k = id then some v else lookupRecord rest id

/-- JS property assignment `obj[key] = value`: overwrites the entry in place
if the key exists, otherwise appends it (JS insertion order). -/
def recordSet {α : Type} : List (String × α) → String → α → List (String × α)
  | [], k, v => [(k, v)]
  | (k2, v2) :: rest, k, v =>
    if k2 = k then (k, v) :: rest else (k2, v2) :: recordSet rest k v

/-- `Object.assign(existingAsset.rates, newAsset.rates)` from
`DataOrchestrator.mergeData`: keys of the new rates overwrite keys of the
existing rates; keys absent in the new rates are kept. -/
def mergeRates (existing newRates : RateType → Option StandardizedRate) :
    RateType → Option StandardizedRate :=
  fun rt =>
    match newRates rt with
    | some r => some r
    | none => existing rt

/-- In-place update of the `rates` field of the (unique) entry with the given
key: models the mutation performed by `Object.assign` on the asset object
already stored in `merged.assets`. -/
def setRates : List (String × StandardizedAsset) → String →
    (RateType → Option StandardizedRate) → List (String × StandardizedAsset)
  | [], _, _ => []
  | (k, a) :: rest, id, r =>
    if k = id then (k, { a with rates := r }) :: rest else (k, a) :: setRates rest id r

/-- One iteration of the inner loop of `DataOrchestrator.mergeData`
(data.orchestrator.ts lines 88-100): if the asset id already exists in the
accumulator, merge the rates dictionaries; otherwise add the asset. -/
def mergeAsset (acc : List (String × StandardizedAsset))
    (p : String × StandardizedAsset) : List (String × StandardizedAsset) :=
  match lookupRecord acc p.1 with
  | some existing => setRates acc p.1 (mergeRates existing.rates p.2.rates)
  | none => acc ++ [p]

/-- Processing one source dataset in `DataOrchestrator.mergeData`. -/
def mergeDataset (acc : List (String × StandardizedAsset))
    (sourceData : StandardizedData) : List (String × StandardizedAsset) :=
  sourceData.assets.foldl mergeAsset acc

/-- `DataOrchestrator.mergeData` (data.orchestrator.ts lines 84-103). -/
def mergeData (sourcesData : List StandardizedData) : StandardizedData :=
  { assets := sourcesData.foldl mergeDataset [] }

/-- Specification-side view of one merge step on the value stored under a
fixed asset id: `none` means the id is absent so far. -/
def mergeStep (acc contrib : Option StandardizedAsset) : Option StandardizedAsset :=
  match contrib, acc with
  | none, o => o
  | some b, none => some b
  | some b, some a => some { a with rates := mergeRates a.rates b.rates }

/-- The rate stored for an id and a rate type in a dataset. -/
def assetRate (d : StandardizedData) (id : String) (rt : RateType) :
    Option StandardizedRate :=
  (lookupRecord d.assets id).bind (fun a => a.rates rt)

/-- All top-level fields of `m` other than `rates` agree with those of `a`. -/
def sameMetadata (a m : StandardizedAsset) : Prop :=
  m.identifier = a.identifier ∧ m.name = a.name ∧ m.type = a.type ∧
  m.source = a.source ∧ m.timestamp = a.timestamp ∧
  m.historicalData = a.historicalData

/-- Health status from `DataSourceHealth.status` in data-contracts.ts. -/
inductive HealthStatus where
  | healthy
  | degraded
  | failed
deriving DecidableEq

/-- `DataSourceHealth` from data-contracts.ts. -/
structure DataSourceHealth where
  source : String
  status : HealthStatus
  lastCheck : Int
  latency : Int
  message : Option String

/-- `BaseDataSource.updateHealth` (base.data-source.ts lines 48-60).  The JS
expression `message || (isSuccess ? "OK" : "Failed")` treats the empty string
as falsy, hence the inner test. -/
def updateHealth (name : String) (isSuccess : Bool) (checkTime latency : Int)
    (message : Option String) : DataSourceHealth :=
  { source := name
    status := if isSuccess then HealthStatus.healthy else HealthStatus.degraded
    lastCheck := checkTime
    latency := latency
    message := some (match message with
      | some m => if m = "" then (if isSuccess then "OK" else "Failed") else m
      | none => if isSuccess then "OK" else "Failed") }

/-- The combined outcome of `executeFetch()` followed by
`adaptToStandardizedFormat` inside the `try` block of
`BaseDataSource.fetchStandardizedData`: an exception in either step reaches
the `catch` with its message. -/
def execAdaptResult {α : Type} (execResult : Except String α)
    (adapt : α → Except String StandardizedData) : Except String StandardizedData :=
  match execResult with
  | Except.ok raw => adapt raw
  | Except.error e => Except.error e

/-- `BaseDataSource.fetchStandardizedData` (base.data-source.ts lines 24-38).
`execResult` is the outcome of `executeFetch()`, `adapt` the adapter call,
`latency` the measured `Date.now() - startTime`, `checkTime` the `Date.now()`
read inside `updateHealth`.  Returns the call result (returned dataset or
thrown error message) together with the updated health record. -/
def fetchStandardizedData {α : Type} (name : String) (execResult : Except String α)
    (adapt : α → Except String StandardizedData) (latency checkTime : Int) :
    Except String StandardizedData × DataSourceHealth :=
  match execAdaptResult execResult adapt with
  | Except.ok adapted =>
    (Except.ok adapted, updateHealth name true checkTime latency none)
  | Except.error msg =>
    (Except.error ("[" ++ name ++ "] " ++ msg),
     updateHealth name false checkTime latency (some msg))

/-- One configured source as seen by one orchestrator cycle: its name, the
health status its `getHealth()` reports when the loop reaches it, the outcome
of awaiting `fetchStandardizedData()` (returned dataset or thrown error),
and the duration of that awaited call in milliseconds. -/
structure SourceModel where
  name : String
  status : HealthStatus
  outcome : Except String StandardizedData
  latencyMs : Int

/-- The mutable orchestrator state: `cachedData` and `cacheExpiry`
(data.orchestrator.ts lines 11-12). -/
structure OrchestratorState where
  cachedData : Option StandardizedData
  cacheExpiry : Int

/-- The state right after construction of `DataOrchestrator`. -/
def initialOrchestratorState : OrchestratorState :=
  { cachedData := none, cacheExpiry := 0 }

/-- Observable outcome of one `getStandardizedData()` call: the returned
dataset or thrown error, the post-call state, the names of the sources whose
`fetchStandardizedData()` was invoked, and whether `logger.error` fired. -/
structure CallOutcome where
  result : Except String StandardizedData
  state : OrchestratorState
  attempted : List String
  erroredLog : Bool

/-- The datasets pushed onto `successfulFetches` by the fetch loop
(data.orchestrator.ts lines 30-44): sources whose health status is `failed`
are skipped and a thrown fetch is caught and discarded. -/
def successfulFetches : List SourceModel → List StandardizedData
  | [] => []
  | s :: rest =>
    if s.status = HealthStatus.failed then successfulFetches rest
    else
      match s.outcome with
      | Except.ok d => d :: successfulFetches rest
      | Except.error _ => successfulFetches rest

/-- Names of the sources on which the loop invokes `fetchStandardizedData()`:
exactly the sources not in `failed` health status, in order. -/
def attemptedSources : List SourceModel → List String
  | [] => []
  | s :: rest =>
    if s.status = HealthStatus.failed then attemptedSources rest
    else s.name :: attemptedSources rest

/-- The message of the error thrown when no assets were merged and no cache
exists (data.orchestrator.ts line 56). -/
def unavailableMsg : String :=
  "All data sources are unavailable and no cache exists."

/-- The cache-miss part of `DataOrchestrator.getStandardizedData`
(data.orchestrator.ts lines 28-66): fetch, merge, stale fallback or hard
error on an empty merge, otherwise cache replacement. -/
def runCycle (st : OrchestratorState) (now cacheTimeoutMs : Int)
    (sources : List SourceModel) : CallOutcome :=
  let mergedData := mergeData (successfulFetches sources)
  if mergedData.assets.length = 0 then
    match st.cachedData with
    | some d =>
      { result := Except.ok d, state := st,
        attempted := attemptedSources sources, erroredLog := true }
    | none =>
      { result := Except.error unavailableMsg, state := st,
        attempted := attemptedSources sources, erroredLog := false }
  else
    { result := Except.ok mergedData
      state := { cachedData := some mergedData, cacheExpiry := now + cacheTimeoutMs }
      attempted := attemptedSources sources
      erroredLog := false }

/-- `DataOrchestrator.getStandardizedData` (data.orchestrator.ts lines
22-67).  `now` is the `Date.now()` of the call and `cacheTimeoutMs` comes
from the configuration. -/
def getStandardizedData (st : OrchestratorState) (now cacheTimeoutMs : Int)
    (sources : List SourceModel) : CallOutcome :=
  match st.cachedData with
  | some d =>
    if now < st.cacheExpiry then
      { result := Except.ok d, state := st, attempted := [], erroredLog := false }
    else runCycle st now cacheTimeoutMs sources
  | none => runCycle st now cacheTimeoutMs sources

/-- The cache invariant: a cached dataset always holds at least one asset. -/
def cacheNonempty (st : OrchestratorState) : Prop :=
  ∀ d, st.cachedData = some d → d.assets.length ≠ 0

/-- Timing of the fetch loop of `getStandardizedData` (data.orchestrator.ts
lines 30-44).  The loop `await`s each non-skipped source in turn, so a
source's fetch starts only when the previous non-skipped source's fetch has
settled.  Returns each fetched source's name with the start time of its
fetch, `t` being the time the loop is entered. -/
def seqFetchSchedule : Int → List SourceModel → List (String × Int)
  | _, [] => []
  | t, s :: rest =>
    if s.status = HealthStatus.failed then seqFetchSchedule t rest
    else (s.name, t) :: seqFetchSchedule (t + s.latencyMs) rest

/-- Total fetch duration of the non-skipped sources of a list. -/
def nonFailedLatencySum : List SourceModel → Int
  | [] => 0
  | s :: rest =>
    if s.status = HealthStatus.failed then nonFailedLatencySum rest
    else s.latencyMs + nonFailedLatencySum rest

/-- Raw chart data of one Sarf rate (sarf-currency.adapter.ts). -/
structure SarfChart where
  times : List Int
  buyingPrices : List ℚ

/-- `SarfRawRate` from sarf-currency.adapter.ts. -/
structure SarfRawRate where
  buying : ℚ
  selling : ℚ
  chart : Option SarfChart

/-- `SarfRawResponse` from sarf-currency.adapter.ts: `rates` is a JS object
keyed by currency code. -/
structure SarfRawResponse where
  rates : List (String × SarfRawRate)

/-- The asset built by `SarfCurrencyAdapter.adapt` for one raw entry
(sarf-currency.adapter.ts lines 29-58); `now` is the `Date.now()` read at
the top of `adapt`.  When the chart arrays have unequal lengths the JS code
reads past the shorter one; that corner is modelled by `getD _ 0`. -/
def sarfAssetOf (sourceName : String) (now : Int)
    (p : String × SarfRawRate) : StandardizedAsset :=
  { identifier := p.1.toUpper ++ "_EGP"
    name := p.1.toUpper ++ " to EGP"
    type := AssetType.currency
    source := sourceName
    timestamp := now
    rates := fun rt =>
      match rt with
      | RateType.parallel_market =>
        some { buying := p.2.buying, selling := p.2.selling,
               midRate := (p.2.buying + p.2.selling) / 2, unit := "EGP" }
      | _ => none
    historicalData :=
      match p.2.chart with
      | some chart =>
        chart.times.enum.map (fun q =>
          { timestamp := q.2 * 1000, value := chart.buyingPrices.getD q.1 0 })
      | none => [] }

/-- The identifier assigned by `SarfCurrencyAdapter.adapt` to one entry. -/
def sarfIdOf (p : String × SarfRawRate) : String :=
  p.1.toUpper ++ "_EGP"

/-- `SarfCurrencyAdapter.adapt` (sarf-currency.adapter.ts lines 24-62). -/
def sarfAdapt (sourceName : String) (rawData : SarfRawResponse) (now : Int) :
    StandardizedData :=
  { assets := rawData.rates.foldl
      (fun acc p => recordSet acc (sarfIdOf p) (sarfAssetOf sourceName now p)) [] }

/-- One commodity of `MockCommodityRawData` (mock-commodities.adapter.ts). -/
structure MockCommodity where
  name : String
  id : String
  price : ℚ
  unit : String
  change : ℚ

/-- `MockCommodityRawData`; `timestampMs` stands for
`new Date(rawData.timestamp).getTime()` applied to the raw ISO string. -/
structure MockCommodityRawData where
  timestampMs : Int
  commodities : List MockCommodity

/-- The asset built by `MockCommoditiesAdapter.adapt` for the commodity at
index `q.1` (mock-commodities.adapter.ts lines 131-153).  `rand ci i` stands
for the `Math.random()` draw used for the `i`-th simulated historical point
of the `ci`-th commodity. -/
def mockAssetOf (sourceName : String) (ts : Int) (rand : Nat → Nat → ℚ)
    (q : Nat × MockCommodity) : StandardizedAsset :=
  { identifier := q.2.id
    name := q.2.name
    type := AssetType.commodity
    source := sourceName
    timestamp := ts
    rates := fun rt =>
      match rt with
      | RateType.market =>
        some { buying := q.2.price * ((998 : ℚ) / 1000),
               selling := q.2.price * ((1002 : ℚ) / 1000),
               midRate := q.2.price, unit := q.2.unit }
      | _ => none
    historicalData := (List.range 30).map (fun i =>
      { timestamp := ts - ((30 - i : Nat) : Int) * 86400000
        value := q.2.price * (1 + (rand q.1 i - (1 : ℚ) / 2) * ((1 : ℚ) / 10)) }) }

/-- The record key used by `MockCommoditiesAdapter.adapt` for one entry. -/
def mockIdOf (q : Nat × MockCommodity) : String :=
  q.2.id

/-- `MockCommoditiesAdapter.adapt` (mock-commodities.adapter.ts lines
127-156). -/
def mockAdapt (sourceName : String) (rawData : MockCommodityRawData)
    (rand : Nat → Nat → ℚ) : StandardizedData :=
  { assets := rawData.commodities.enum.foldl
      (fun acc q => recordSet acc (mockIdOf q) (mockAssetOf sourceName rawData.timestampMs rand q)) [] }

/-- Erase the clock-dependent `timestamp` field of an asset. -/
def scrubAssetTime (a : StandardizedAsset) : StandardizedAsset :=
  { a with timestamp := 0 }

/-- Erase the clock-dependent asset timestamps of a dataset. -/
def scrubTimestamps (d : StandardizedData) : StandardizedData :=
  { assets := d.assets.map (fun q => (q.1, scrubAssetTime q.2)) }

/-- Erase the randomness-dependent simulated historical values of an asset. -/
def scrubAssetHist (a : StandardizedAsset) : StandardizedAsset :=
  { a with historicalData := a.historicalData.map (fun p => { p with value := 0 }) }

/-- Erase the randomness-dependent simulated historical values of a dataset. -/
def scrubHistoricalValues (d : StandardizedData) : StandardizedData :=
  { assets := d.assets.map (fun q => (q.1, scrubAssetHist q.2)) }

/-! ### Concrete example data used for witnesses and counterexamples -/

/-- A rates mapping holding only an `official` entry. -/
def onlyOfficial (r : StandardizedRate) : RateType → Option StandardizedRate :=
  fun rt =>
    match rt with
    | RateType.official => some r
    | _ => none

/-- A rates mapping holding only a `parallel_market` entry. -/
def onlyParallel (r : StandardizedRate) : RateType → Option StandardizedRate :=
  fun rt =>
    match rt with
    | RateType.parallel_market => some r
    | _ => none

def rateA : StandardizedRate :=
  { buying := 50, selling := 51, midRate := 50, unit := "EGP" }

def rateB : StandardizedRate :=
  { buying := 60, selling := 61, midRate := 60, unit := "EGP" }

def rateP : StandardizedRate :=
  { buying := 70, selling := 71, midRate := 70, unit := "EGP" }

def assetUA : StandardizedAsset :=
  { identifier := "U", name := "A-name", type := AssetType.currency,
    source := "SrcA", timestamp := 1, rates := onlyOfficial rateA,
    historicalData := [{ timestamp := 5, value := 1 }] }

def assetUB : StandardizedAsset :=
  { identifier := "U", name := "B-name", type := AssetType.currency,
    source := "SrcB", timestamp := 2, rates := onlyOfficial rateB,
    historicalData := [] }

def assetUP : StandardizedAsset :=
  { identifier := "U", name := "P-name", type := AssetType.currency,
    source := "SrcP", timestamp := 3, rates := onlyParallel rateP,
    historicalData := [] }

def dsA : StandardizedData := { assets := [("U", assetUA)] }

def dsB : StandardizedData := { assets := [("U", assetUB)] }

def dsP : StandardizedData := { assets := [("U", assetUP)] }

def assetX : StandardizedAsset :=
  { identifier := "X", name := "X-name", type := AssetType.currency,
    source := "S1", timestamp := 0, rates := onlyOfficial rateA,
    historicalData := [] }

def assetZ : StandardizedAsset :=
  { identifier := "Z", name := "Z-name", type := AssetType.commodity,
    source := "S3", timestamp := 0, rates := onlyParallel rateP,
    historicalData := [] }

def dsX : StandardizedData := { assets := [("X", assetX)] }

def dsZ : StandardizedData := { assets := [("Z", assetZ)] }

def srcOk1 : SourceModel :=
  { name := "S1", status := HealthStatus.healthy, outcome := Except.ok dsX,
    latencyMs := 5 }

def srcThrow2 : SourceModel :=
  { name := "S2", status := HealthStatus.healthy, outcome := Except.error "boom",
    latencyMs := 5 }

def srcOk3 : SourceModel :=
  { name := "S3", status := HealthStatus.degraded, outcome := Except.ok dsZ,
    latencyMs := 5 }

def srcDown4 : SourceModel :=
  { name := "S4", status := HealthStatus.failed, outcome := Except.error "down",
    latencyMs := 5 }

def srcSlowA : SourceModel :=
  { name := "A", status := HealthStatus.healthy, outcome := Except.error "slow",
    latencyMs := 100 }

def srcFastA : SourceModel :=
  { name := "A", status := HealthStatus.healthy, outcome := Except.error "slow",
    latencyMs := 0 }

def srcNextB : SourceModel :=
  { name := "B", status := HealthStatus.healthy, outcome := Except.error "x",
    latencyMs := 7 }

/-- An adapter stub that always succeeds with `dsX`. -/
def adaptOkEx : Unit → Except String StandardizedData :=
  fun _ => Except.ok dsX

/-- A one-entry Sarf payload (no chart). -/
def sarfRawEx : SarfRawResponse :=
  { rates := [("USD", { buying := 50, selling := 51, chart := none })] }

/-- A one-commodity mock payload. -/
def mockRawEx : MockCommodityRawData :=
  { timestampMs := 1000,
    commodities := [{ name := "Gold", id := "G", price := 100,
                      unit := "USD/oz", change := 1 }] }

/-! ### Helper lemmas about record lookup and the merge algorithm -/

theorem lookupRecord_append {α : Type} (l1 l2 : List (String × α)) (id : String) :
    lookupRecord (l1 ++ l2) id =
      match lookupRecord l1 id with
      | some v => some v
      | none => lookupRecord l2 id := by
  induction l1 with
  | nil => simp [lookupRecord]
  | cons p rest ih =>
    obtain ⟨k, v⟩ := p
    by_cases h : k = id <;> simp [lookupRecord, h, ih]

theorem lookupRecord_eq_none_of_not_mem {α : Type} (l : List (String × α))
    (id : String) (h : id ∉ l.map Prod.fst) : lookupRecord l id = none := by
  induction l with
  | nil => rfl
  | cons p rest ih =>
    obtain ⟨k, v⟩ := p
    simp only [List.map_cons, List.mem_cons] at h
    push_neg at h
    have hk : k ≠ id := fun hkid => h.1 hkid.symm
    simp [lookupRecord, hk, ih h.2]

theorem lookup_setRates_self (l : List (String × StandardizedAsset)) (id : String)
    (r : RateType → Option StandardizedRate) :
    lookupRecord (setRates l id r) id =
      (lookupRecord l id).map (fun a => { a with rates := r }) := by
  induction l with
  | nil => rfl
  | cons p rest ih =>
    obtain ⟨k, a⟩ := p
    by_cases h : k = id <;> simp [setRates, lookupRecord, h, ih]

theorem lookup_setRates_ne (l : List (String × StandardizedAsset)) (id id2 : String)
    (r : RateType → Option StandardizedRate) (h : id ≠ id2) :
    lookupRecord (setRates l id r) id2 = lookupRecord l id2 := by
  induction l with
  | nil => rfl
  | cons p rest ih =>
    obtain ⟨k, a⟩ := p
    by_cases hk : k = id
    · subst hk
      simp [setRates, lookupRecord, h]
    · simp [setRates, lookupRecord, hk, ih]

theorem lookup_mergeAsset_self (acc : List (String × StandardizedAsset))
    (k : String) (b : StandardizedAsset) :
    lookupRecord (mergeAsset acc (k, b)) k =
      mergeStep (lookupRecord acc k) (some b) := by
  rcases hacc : lookupRecord acc k with _ | a
  · simp [mergeAsset, hacc, lookupRecord_append, lookupRecord, mergeStep]
  · simp [mergeAsset, hacc, lookup_setRates_self, mergeStep]

theorem lookup_mergeAsset_ne (acc : List (String × StandardizedAsset))
    (k : String) (b : StandardizedAsset) (id : String) (h : k ≠ id) :
    lookupRecord (mergeAsset acc (k, b)) id = lookupRecord acc id := by
  rcases hacc : lookupRecord acc k with _ | a
  · rw [mergeAsset]
    simp only [hacc, lookupRecord_append, lookupRecord, h, if_neg h]
    rcases lookupRecord acc id with _ | v <;> simp
  · rw [mergeAsset]
    simp only [hacc]
    exact lookup_setRates_ne acc k id _ h

theorem lookup_foldl_mergeAsset (l : List (String × StandardizedAsset)) (id : String) :
    ∀ acc : List (String × StandardizedAsset), (l.map Prod.fst).Nodup →
      lookupRecord (l.foldl mergeAsset acc) id =
        mergeStep (lookupRecord acc id) (lookupRecord l id) := by
  induction l with
  | nil =>
    intro acc _
    simp [lookupRecord, mergeStep]
  | cons p rest ih =>
    intro acc hnd
    obtain ⟨k, b⟩ := p
    simp only [List.map_cons, List.nodup_cons] at hnd
    obtain ⟨hk, hrest⟩ := hnd
    rw [List.foldl_cons, ih _ hrest]
    by_cases hid : k = id
    · subst hid
      rw [lookupRecord_eq_none_of_not_mem rest k hk]
      simp only [mergeStep, lookupRecord, if_pos rfl]
      exact lookup_mergeAsset_self acc k b
    · rw [lookup_mergeAsset_ne acc k b id hid]
      simp [lookupRecord, hid]

theorem lookupRecord_mergeData (ds : List StandardizedData) (id : String)
    (hnd : ∀ d ∈ ds, (d.assets.map Prod.fst).Nodup) :
    lookupRecord (mergeData ds).assets id =
      ds.foldl (fun o d => mergeStep o (lookupRecord d.assets id)) none := by
  have key : ∀ (l : List StandardizedData) (acc : List (String × StandardizedAsset)),
      (∀ d ∈ l, (d.assets.map Prod.fst).Nodup) →
      lookupRecord (l.foldl mergeDataset acc) id =
        l.foldl (fun o d => mergeStep o (lookupRecord d.assets id)) (lookupRecord acc id) := by
    intro l
    induction l with
    | nil => intro acc _; rfl
    | cons d rest ih =>
      intro acc h
      have hd := h d (List.mem_cons_self d rest)
      have hrest := fun x hx => h x (List.mem_cons_of_mem d hx)
      rw [List.foldl_cons, List.foldl_cons, ih _ hrest]
      have : lookupRecord (mergeDataset acc d) id =
          mergeStep (lookupRecord acc id) (lookupRecord d.assets id) :=
        lookup_foldl_mergeAsset d.assets id acc hd
      rw [this]
  have h0 := key ds [] hnd
  simpa [mergeData, lookupRecord] using h0

theorem foldl_mergeStep_none_of_all_none (l : List StandardizedData) (id : String)
    (h : ∀ d ∈ l, lookupRecord d.assets id = none) :
    l.foldl (fun o d => mergeStep o (lookupRecord d.assets id)) none = none := by
  induction l with
  | nil => rfl
  | cons d rest ih =>
    rw [List.foldl_cons, h d (List.mem_cons_self d rest)]
    exact ih (fun x hx => h x (List.mem_cons_of_mem d hx))

theorem sameMetadata_trans (a b c : StandardizedAsset)
    (h1 : sameMetadata a b) (h2 : sameMetadata b c) : sameMetadata a c := by
  obtain ⟨e1, e2, e3, e4, e5, e6⟩ := h1
  obtain ⟨f1, f2, f3, f4, f5, f6⟩ := h2
  exact ⟨f1.trans e1, f2.trans e2, f3.trans e3, f4.trans e4, f5.trans e5, f6.trans e6⟩

theorem mergeStep_some_meta (a : StandardizedAsset) (o : Option StandardizedAsset) :
    ∃ m, mergeStep (some a) o = some m ∧ sameMetadata a m := by
  cases o with
  | none => exact ⟨a, rfl, rfl, rfl, rfl, rfl, rfl, rfl⟩
  | some b => exact ⟨_, rfl, rfl, rfl, rfl, rfl, rfl, rfl⟩

theorem foldl_mergeStep_some_meta (l : List StandardizedData) (id : String) :
    ∀ a : StandardizedAsset,
      ∃ m, l.foldl (fun o d => mergeStep o (lookupRecord d.assets id)) (some a) = some m ∧
        sameMetadata a m := by
  induction l with
  | nil => intro a; exact ⟨a, rfl, rfl, rfl, rfl, rfl, rfl, rfl⟩
  | cons d rest ih =>
    intro a
    obtain ⟨a2, ha2, hmeta2⟩ := mergeStep_some_meta a (lookupRecord d.assets id)
    obtain ⟨m, hm, hmeta⟩ := ih a2
    refine ⟨m, ?_, sameMetadata_trans a a2 m hmeta2 hmeta⟩
    rw [List.foldl_cons, ha2, hm]

theorem foldl_mergeStep_ne_none_iff (l : List StandardizedData) (id : String) :
    l.foldl (fun o d => mergeStep o (lookupRecord d.assets id)) none ≠ none ↔
      ∃ d ∈ l, lookupRecord d.assets id ≠ none := by
  induction l with
  | nil => simp [lookupRecord]
  | cons d rest ih =>
    rcases hd : lookupRecord d.assets id with _ | b
    · rw [List.foldl_cons, hd]
      show rest.foldl _ none ≠ none ↔ _
      rw [ih]
      constructor
      · rintro ⟨x, hx, hlx⟩
        exact ⟨x, List.mem_cons_of_mem d hx, hlx⟩
      · rintro ⟨x, hx, hlx⟩
        rcases List.mem_cons.mp hx with rfl | hx2
        · exact absurd hd hlx
        · exact ⟨x, hx2, hlx⟩
    · rw [List.foldl_cons, hd]
      obtain ⟨m, hm, _⟩ := foldl_mergeStep_some_meta rest id b
      show rest.foldl _ (mergeStep none (some b)) ≠ none ↔ _
      have hstep : mergeStep none (some b) = some b := rfl
      rw [hstep, hm]
      simp only [ne_eq, reduceCtorEq, not_false_eq_true, true_iff]
      exact ⟨d, List.mem_cons_self d rest, by simp [hd]⟩

theorem mem_successfulFetches (sources : List SourceModel) (d : StandardizedData) :
    d ∈ successfulFetches sources ↔
      ∃ s ∈ sources, s.status ≠ HealthStatus.failed ∧ s.outcome = Except.ok d := by
  induction sources with
  | nil => simp [successfulFetches]
  | cons s rest ih =>
    by_cases hs : s.status = HealthStatus.failed
    · simp [successfulFetches, hs, ih]
    · rcases ho : s.outcome with e | d2
      · simp [successfulFetches, hs, ho, ih]
      · simp only [successfulFetches, if_neg hs, ho, List.mem_cons, ih]
        constructor
        · rintro (rfl | ⟨x, hx, hxs, hxo⟩)
          · exact ⟨s, Or.inl rfl, hs, ho⟩
          · exact ⟨x, Or.inr hx, hxs, hxo⟩
        · rintro ⟨x, rfl | hx2, hxs, hxo⟩
          · rw [ho] at hxo
            exact Or.inl (Except.ok.inj hxo).symm
          · exact Or.inr ⟨x, hx2, hxs, hxo⟩

theorem getStandardizedData_miss (st : OrchestratorState) (now cT : Int)
    (sources : List SourceModel) (h : st.cachedData = none ∨ st.cacheExpiry ≤ now) :
    getStandardizedData st now cT sources = runCycle st now cT sources := by
  rcases hc : st.cachedData with _ | d
  · simp [getStandardizedData, hc]
  · rcases h with h | h
    · rw [hc] at h; cases h
    · simp [getStandardizedData, hc, not_lt.mpr h]

theorem assetRate_mergeData_pair (A B : StandardizedData) (id : String)
    (a b : StandardizedAsset)
    (hndA : (A.assets.map Prod.fst).Nodup) (hndB : (B.assets.map Prod.fst).Nodup)
    (hA : lookupRecord A.assets id = some a) (hB : lookupRecord B.assets id = some b)
    (rt : RateType) :
    assetRate (mergeData [A, B]) id rt = mergeRates a.rates b.rates rt := by
  have hnd : ∀ d ∈ [A, B], (d.assets.map Prod.fst).Nodup := by
    intro d hd
    rcases List.mem_cons.mp hd with rfl | hd2
    · exact hndA
    · rcases List.mem_cons.mp hd2 with rfl | hd3
      · exact hndB
      · cases hd3
  rw [assetRate, lookupRecord_mergeData [A, B] id hnd]
  simp [hA, hB, mergeStep]

/-! ### Helper lemmas about the adapters -/

theorem map_recordSet {α : Type} (s : α → α) (acc : List (String × α))
    (k : String) (v : α) :
    (recordSet acc k v).map (fun q => (q.1, s q.2)) =
      recordSet (acc.map (fun q => (q.1, s q.2))) k (s v) := by
  induction acc with
  | nil => rfl
  | cons p rest ih =>
    obtain ⟨k2, v2⟩ := p
    by_cases h : k2 = k <;> simp [recordSet, h, ih]

theorem foldl_recordSet_map_congr {α A : Type} (s : A → A) (key : α → String)
    (f1 f2 : α → A) (l : List α) (h : ∀ p ∈ l, s (f1 p) = s (f2 p)) :
    ∀ acc1 acc2 : List (String × A),
      acc1.map (fun q => (q.1, s q.2)) = acc2.map (fun q => (q.1, s q.2)) →
      (l.foldl (fun acc p => recordSet acc (key p) (f1 p)) acc1).map (fun q => (q.1, s q.2)) =
        (l.foldl (fun acc p => recordSet acc (key p) (f2 p)) acc2).map (fun q => (q.1, s q.2)) := by
  induction l with
  | nil =>
    intro acc1 acc2 hab
    simpa using hab
  | cons p rest ih =>
    intro acc1 acc2 hab
    refine ih (fun q hq => h q (List.mem_cons_of_mem p hq)) _ _ ?_
    show (recordSet acc1 (key p) (f1 p)).map (fun q => (q.1, s q.2)) =
      (recordSet acc2 (key p) (f2 p)).map (fun q => (q.1, s q.2))
    rw [map_recordSet, map_recordSet, hab, h p (List.mem_cons_self p rest)]

theorem scrubAssetTime_sarfAssetOf (n : String) (t1 t2 : Int)
    (p : String × SarfRawRate) :
    scrubAssetTime (sarfAssetOf n t1 p) = scrubAssetTime (sarfAssetOf n t2 p) := rfl

theorem map_scrubValue_comp (f g : Nat → StandardizedHistoricalPoint)
    (h : ∀ i, (f i).timestamp = (g i).timestamp) (l : List Nat) :
    (l.map f).map (fun p => { p with value := 0 }) =
      (l.map g).map (fun p => { p with value := 0 }) := by
  induction l with
  | nil => rfl
  | cons i rest ih =>
    simp only [List.map_cons]
    rw [ih]
    congr 1
    show ({ timestamp := (f i).timestamp, value := 0 } : StandardizedHistoricalPoint) =
      { timestamp := (g i).timestamp, value := 0 }
    rw [h i]

theorem scrubAssetHist_mockAssetOf (n : String) (ts : Int) (r1 r2 : Nat → Nat → ℚ)
    (q : Nat × MockCommodity) :
    scrubAssetHist (mockAssetOf n ts r1 q) = scrubAssetHist (mockAssetOf n ts r2 q) := by
  unfold scrubAssetHist mockAssetOf
  have h := map_scrubValue_comp
    (fun i => ({ timestamp := ts - ((30 - i : Nat) : Int) * 86400000
                 value := q.2.price * (1 + (r1 q.1 i - (1 : ℚ) / 2) * ((1 : ℚ) / 10)) } :
                 StandardizedHistoricalPoint))
    (fun i => ({ timestamp := ts - ((30 - i : Nat) : Int) * 86400000
                 value := q.2.price * (1 + (r2 q.1 i - (1 : ℚ) / 2) * ((1 : ℚ) / 10)) } :
                 StandardizedHistoricalPoint))
    (fun i => rfl) (List.range 30)
  exact congrArg (StandardizedAsset.mk _ _ _ _ _ _) h

/-! ### Claim theorems -/

/-- C1: for datasets A and B that both contain an asset under the same
identifier and both supply a rate for the same RateType, `mergeData [A, B]`
yields, for that identifier and rate type, exactly B's rate value, and
`mergeData [B, A]` yields exactly A's rate value: the later-processed
source's rate overwrites the earlier one's for the same rate type. -/
theorem merge_overwrite_same_rate_type
    (A B : StandardizedData) (id : String) (a b : StandardizedAsset) (rt : RateType)
    (ra rb : StandardizedRate)
    (hndA : (A.assets.map Prod.fst).Nodup) (hndB : (B.assets.map Prod.fst).Nodup)
    (hA : lookupRecord A.assets id = some a) (hB : lookupRecord B.assets id = some b)
    (hra : a.rates rt = some ra) (hrb : b.rates rt = some rb) :
    assetRate (mergeData [A, B]) id rt = some rb ∧
    assetRate (mergeData [B, A]) id rt = some ra := by
  constructor
  · rw [assetRate_mergeData_pair A B id a b hndA hndB hA hB rt]
    simp [mergeRates, hrb]
  · rw [assetRate_mergeData_pair B A id b a hndB hndA hB hA rt]
    simp [mergeRates, hra]

theorem merge_overwrite_same_rate_type_witness :
    assetRate (mergeData [dsA, dsB]) "U" RateType.official = some rateB ∧
    assetRate (mergeData [dsB, dsA]) "U" RateType.official = some rateA :=
  merge_overwrite_same_rate_type dsA dsB "U" assetUA assetUB RateType.official
    rateA rateB (by decide) (by decide) rfl rfl rfl rfl

/-- C2: for datasets A and B containing the same asset identifier with
disjoint sets of RateType keys, the rates of that asset in
`mergeData [A, B]` agree with those in `mergeData [B, A]`, and both equal
the union of A's and B's rate entries for that identifier. -/
theorem merge_union_disjoint_rate_types
    (A B : StandardizedData) (id : String) (a b : StandardizedAsset)
    (hndA : (A.assets.map Prod.fst).Nodup) (hndB : (B.assets.map Prod.fst).Nodup)
    (hA : lookupRecord A.assets id = some a) (hB : lookupRecord B.assets id = some b)
    (hdisj : ∀ rt, a.rates rt = none ∨ b.rates rt = none) :
    (∀ rt, assetRate (mergeData [A, B]) id rt = assetRate (mergeData [B, A]) id rt) ∧
    (∀ rt r, assetRate (mergeData [A, B]) id rt = some r ↔
      (a.rates rt = some r ∨ b.rates rt = some r)) := by
  constructor
  · intro rt
    rw [assetRate_mergeData_pair A B id a b hndA hndB hA hB rt,
        assetRate_mergeData_pair B A id b a hndB hndA hB hA rt]
    rcases ha2 : a.rates rt with _ | x <;> rcases hb2 : b.rates rt with _ | y
    · simp [mergeRates, ha2, hb2]
    · simp [mergeRates, ha2, hb2]
    · simp [mergeRates, ha2, hb2]
    · exfalso
      rcases hdisj rt with h | h
      · rw [ha2] at h; simp at h
      · rw [hb2] at h; simp at h
  · intro rt r
    rw [assetRate_mergeData_pair A B id a b hndA hndB hA hB rt]
    rcases hdisj rt with h | h
    · rcases hb2 : b.rates rt with _ | y <;> simp [mergeRates, h, hb2]
    · rcases ha2 : a.rates rt with _ | x <;> simp [mergeRates, h, ha2]

theorem merge_union_disjoint_rate_types_witness :
    assetRate (mergeData [dsA, dsP]) "U" RateType.official =
      assetRate (mergeData [dsP, dsA]) "U" RateType.official ∧
    assetRate (mergeData [dsA, dsP]) "U" RateType.official = some rateA ∧
    assetRate (mergeData [dsA, dsP]) "U" RateType.parallel_market = some rateP := by
  have h := merge_union_disjoint_rate_types dsA dsP "U" assetUA assetUP
    (by decide) (by decide) rfl rfl (by intro rt; cases rt <;> decide)
  exact ⟨h.1 RateType.official, (h.2 RateType.official rateA).mpr (Or.inl rfl),
    (h.2 RateType.parallel_market rateP).mpr (Or.inr rfl)⟩

/-- C3: for every list of datasets merged by `mergeData` and every asset id
in the result, the top-level fields identifier, name, type, source,
timestamp and historicalData of the merged asset equal those of the asset
contributed by the first dataset containing that id; later datasets only
affect the rates mapping. -/
theorem merge_first_source_owns_metadata
    (pre post : List StandardizedData) (dA : StandardizedData) (id : String)
    (a : StandardizedAsset)
    (hpre : ∀ p ∈ pre, lookupRecord p.assets id = none)
    (ha : lookupRecord dA.assets id = some a)
    (hnd : ∀ d ∈ pre ++ dA :: post, (d.assets.map Prod.fst).Nodup) :
    ((lookupRecord (mergeData (pre ++ dA :: post)).assets id).map
        StandardizedAsset.identifier = some a.identifier) ∧
    ((lookupRecord (mergeData (pre ++ dA :: post)).assets id).map
        StandardizedAsset.name = some a.name) ∧
    ((lookupRecord (mergeData (pre ++ dA :: post)).assets id).map
        StandardizedAsset.type = some a.type) ∧
    ((lookupRecord (mergeData (pre ++ dA :: post)).assets id).map
        StandardizedAsset.source = some a.source) ∧
    ((lookupRecord (mergeData (pre ++ dA :: post)).assets id).map
        StandardizedAsset.timestamp = some a.timestamp) ∧
    ((lookupRecord (mergeData (pre ++ dA :: post)).assets id).map
        StandardizedAsset.historicalData = some a.historicalData) := by
  rw [lookupRecord_mergeData (pre ++ dA :: post) id hnd, List.foldl_append,
    List.foldl_cons, foldl_mergeStep_none_of_all_none pre id hpre, ha]
  have hstep : mergeStep none (some a) = some a := rfl
  rw [hstep]
  obtain ⟨m, hm, h1, h2, h3, h4, h5, h6⟩ := foldl_mergeStep_some_meta post id a
  rw [hm]
  exact ⟨by simp [h1], by simp [h2], by simp [h3], by simp [h4],
    by simp [h5], by simp [h6]⟩

theorem merge_first_source_owns_metadata_witness :
    ((lookupRecord (mergeData [dsA, dsP]).assets "U").map
        StandardizedAsset.name = some "A-name") ∧
    ((lookupRecord (mergeData [dsA, dsP]).assets "U").map
        StandardizedAsset.source = some "SrcA") ∧
    ((lookupRecord (mergeData [dsA, dsP]).assets "U").map
        StandardizedAsset.historicalData = some [{ timestamp := 5, value := 1 }]) := by
  have h := merge_first_source_owns_metadata [] [dsP] dsA "U" assetUA
    (by intro p hp; cases hp) rfl (by decide)
  exact ⟨by simpa [assetUA] using h.2.1, by simpa [assetUA] using h.2.2.2.1,
    by simpa [assetUA] using h.2.2.2.2.2⟩

/-- C4: when cachedData is non-null and the current time is strictly below
cacheExpiry, `getStandardizedData` returns the cached dataset itself without
fetching from any source (the outcome is independent of the source list and
its attempted-fetch list is empty) and leaves cachedData and cacheExpiry
unchanged. -/
theorem cache_hit_returns_cached (st : OrchestratorState) (now cT : Int)
    (sources : List SourceModel) (d : StandardizedData)
    (hc : st.cachedData = some d) (hf : now < st.cacheExpiry) :
    getStandardizedData st now cT sources =
      { result := Except.ok d, state := st, attempted := [], erroredLog := false } := by
  simp [getStandardizedData, hc, hf]

theorem cache_hit_returns_cached_witness :
    getStandardizedData { cachedData := some dsA, cacheExpiry := 10 } 0 60000 [srcThrow2] =
      { result := Except.ok dsA, state := { cachedData := some dsA, cacheExpiry := 10 },
        attempted := [], erroredLog := false } :=
  cache_hit_returns_cached { cachedData := some dsA, cacheExpiry := 10 } 0 60000
    [srcThrow2] dsA rfl (by decide)

/-- C5: on a cache-miss call whose merge of all successful fetches has zero
assets: with a previously cached dataset the call returns it unchanged and
logs at error severity; with no cache the call fails with the
"all sources unavailable" error; in both branches cachedData and cacheExpiry
are unchanged. -/
theorem empty_merge_stale_or_unavailable (st : OrchestratorState) (now cT : Int)
    (sources : List SourceModel)
    (hmiss : st.cachedData = none ∨ st.cacheExpiry ≤ now)
    (hempty : (mergeData (successfulFetches sources)).assets.length = 0) :
    (∀ d, st.cachedData = some d →
      getStandardizedData st now cT sources =
        { result := Except.ok d, state := st,
          attempted := attemptedSources sources, erroredLog := true }) ∧
    (st.cachedData = none →
      getStandardizedData st now cT sources =
        { result := Except.error unavailableMsg, state := st,
          attempted := attemptedSources sources, erroredLog := false }) := by
  rw [getStandardizedData_miss st now cT sources hmiss]
  constructor
  · intro d hc
    simp [runCycle, hempty, hc]
  · intro hc
    simp [runCycle, hempty, hc]

theorem empty_merge_stale_or_unavailable_witness :
    getStandardizedData { cachedData := some dsA, cacheExpiry := 0 } 5 60000 [srcDown4] =
      { result := Except.ok dsA, state := { cachedData := some dsA, cacheExpiry := 0 },
        attempted := [], erroredLog := true } ∧
    getStandardizedData initialOrchestratorState 5 60000 [srcDown4] =
      { result := Except.error unavailableMsg, state := initialOrchestratorState,
        attempted := [], erroredLog := false } := by
  constructor
  · have h := (empty_merge_stale_or_unavailable { cachedData := some dsA, cacheExpiry := 0 }
      5 60000 [srcDown4] (Or.inr (by decide)) (by decide)).1 dsA rfl
    simpa [attemptedSources, srcDown4] using h
  · have h := (empty_merge_stale_or_unavailable initialOrchestratorState
      5 60000 [srcDown4] (Or.inl rfl) (by decide)).2 rfl
    simpa [attemptedSources, srcDown4] using h

/-- C6: on a cache-miss cycle, sources whose health status is failed are
skipped (the attempted list is exactly the non-failed names), an exception
of one source never propagates (any thrown error of the call is the
all-unavailable one), a non-empty merge is returned as such, and the merged
result contains exactly the asset ids contributed by the sources whose
fetch succeeded. -/
theorem cycle_skips_failed_and_survives_throw (st : OrchestratorState)
    (now cT : Int) (sources : List SourceModel)
    (hmiss : st.cachedData = none ∨ st.cacheExpiry ≤ now)
    (hnd : ∀ d ∈ successfulFetches sources, (d.assets.map Prod.fst).Nodup) :
    ((getStandardizedData st now cT sources).attempted = attemptedSources sources) ∧
    (∀ m, (getStandardizedData st now cT sources).result = Except.error m →
      m = unavailableMsg) ∧
    ((mergeData (successfulFetches sources)).assets.length ≠ 0 →
      (getStandardizedData st now cT sources).result =
        Except.ok (mergeData (successfulFetches sources))) ∧
    (∀ id, lookupRecord (mergeData (successfulFetches sources)).assets id ≠ none ↔
      ∃ s ∈ sources, s.status ≠ HealthStatus.failed ∧
        ∃ d, s.outcome = Except.ok d ∧ lookupRecord d.assets id ≠ none) := by
  have hrc := getStandardizedData_miss st now cT sources hmiss
  refine ⟨?_, ?_, ?_, ?_⟩
  · rw [hrc]
    by_cases hlen : (mergeData (successfulFetches sources)).assets.length = 0
    · rcases hc : st.cachedData with _ | d <;> simp [runCycle, hlen, hc]
    · simp [runCycle, hlen]
  · intro m hm
    rw [hrc] at hm
    by_cases hlen : (mergeData (successfulFetches sources)).assets.length = 0
    · rcases hc : st.cachedData with _ | d
      · simp [runCycle, hlen, hc] at hm
        exact hm.symm
      · simp [runCycle, hlen, hc] at hm
    · simp [runCycle, hlen] at hm
  · intro hne
    rw [hrc]
    simp [runCycle, hne]
  · intro id
    rw [lookupRecord_mergeData (successfulFetches sources) id hnd,
      foldl_mergeStep_ne_none_iff]
    constructor
    · rintro ⟨d, hds, hl⟩
      obtain ⟨s, hsmem, hss, hso⟩ := (mem_successfulFetches sources d).mp hds
      exact ⟨s, hsmem, hss, d, hso, hl⟩
    · rintro ⟨s, hsmem, hss, d, hso, hl⟩
      exact ⟨d, (mem_successfulFetches sources d).mpr ⟨s, hsmem, hss, hso⟩, hl⟩

theorem cycle_skips_failed_and_survives_throw_witness :
    (getStandardizedData initialOrchestratorState 0 60000
        [srcOk1, srcThrow2, srcOk3, srcDown4]).attempted = ["S1", "S2", "S3"] ∧
    (getStandardizedData initialOrchestratorState 0 60000
        [srcOk1, srcThrow2, srcOk3, srcDown4]).result =
      Except.ok (mergeData [dsX, dsZ]) ∧
    lookupRecord (mergeData (successfulFetches
        [srcOk1, srcThrow2, srcOk3, srcDown4])).assets "X" ≠ none ∧
    lookupRecord (mergeData (successfulFetches
        [srcOk1, srcThrow2, srcOk3, srcDown4])).assets "Z" ≠ none := by
  have h := cycle_skips_failed_and_survives_throw initialOrchestratorState 0 60000
    [srcOk1, srcThrow2, srcOk3, srcDown4] (Or.inl rfl) (by decide)
  refine ⟨?_, ?_, ?_, ?_⟩
  · simpa [attemptedSources, srcOk1, srcThrow2, srcOk3, srcDown4] using h.1
  · have h2 := h.2.2.1 (by decide)
    simpa [successfulFetches, srcOk1, srcThrow2, srcOk3, srcDown4] using h2
  · exact (h.2.2.2 "X").mpr
      ⟨srcOk1, by simp, by decide, dsX, rfl, by simp [dsX, lookupRecord]⟩
  · exact (h.2.2.2 "Z").mpr
      ⟨srcOk3, by simp, by decide, dsZ, rfl, by simp [dsZ, lookupRecord]⟩

/-- C7: `BaseDataSource.fetchStandardizedData` records the measured latency
and check time in the health record; when executeFetch and the adapter
succeed it marks the source healthy and returns the adapted dataset; when
either raises it marks the source degraded with the failure message and
fails with an error tagged with the source name and the underlying message,
never returning a dataset. -/
theorem fetch_updates_health_and_propagates {α : Type} (name : String)
    (execResult : Except String α) (adapt : α → Except String StandardizedData)
    (latency checkTime : Int) :
    ((fetchStandardizedData name execResult adapt latency checkTime).2.source = name) ∧
    ((fetchStandardizedData name execResult adapt latency checkTime).2.latency = latency) ∧
    ((fetchStandardizedData name execResult adapt latency checkTime).2.lastCheck = checkTime) ∧
    (∀ d, execAdaptResult execResult adapt = Except.ok d →
      (fetchStandardizedData name execResult adapt latency checkTime).1 = Except.ok d ∧
      (fetchStandardizedData name execResult adapt latency checkTime).2.status =
        HealthStatus.healthy) ∧
    (∀ m, execAdaptResult execResult adapt = Except.error m →
      (fetchStandardizedData name execResult adapt latency checkTime).1 =
        Except.error ("[" ++ name ++ "] " ++ m) ∧
      (fetchStandardizedData name execResult adapt latency checkTime).2.status =
        HealthStatus.degraded ∧
      (m ≠ "" →
        (fetchStandardizedData name execResult adapt latency checkTime).2.message = some m) ∧
      (∀ d, (fetchStandardizedData name execResult adapt latency checkTime).1 ≠
        Except.ok d)) := by
  rcases hres : execAdaptResult execResult adapt with e | d0
  · refine ⟨by simp [fetchStandardizedData, hres, updateHealth],
      by simp [fetchStandardizedData, hres, updateHealth],
      by simp [fetchStandardizedData, hres, updateHealth], ?_, ?_⟩
    · intro d hd
      simp at hd
    · intro m hm
      have hme : e = m := Except.error.inj hm
      subst hme
      refine ⟨by simp [fetchStandardizedData, hres],
        by simp [fetchStandardizedData, hres, updateHealth], ?_, ?_⟩
      · intro hne
        simp [fetchStandardizedData, hres, updateHealth, hne]
      · intro d
        simp [fetchStandardizedData, hres]
  · refine ⟨by simp [fetchStandardizedData, hres, updateHealth],
      by simp [fetchStandardizedData, hres, updateHealth],
      by simp [fetchStandardizedData, hres, updateHealth], ?_, ?_⟩
    · intro d hd
      have hde : d0 = d := Except.ok.inj hd
      subst hde
      exact ⟨by simp [fetchStandardizedData, hres],
        by simp [fetchStandardizedData, hres, updateHealth]⟩
    · intro m hm
      simp at hm

theorem fetch_updates_health_and_propagates_witness :
    (fetchStandardizedData "S" (Except.ok ()) adaptOkEx 5 9).1 = Except.ok dsX ∧
    (fetchStandardizedData "S" (Except.ok ()) adaptOkEx 5 9).2.status =
      HealthStatus.healthy ∧
    (fetchStandardizedData "S" (Except.error "boom") adaptOkEx 5 9).1 =
      Except.error "[S] boom" ∧
    (fetchStandardizedData "S" (Except.error "boom") adaptOkEx 5 9).2.status =
      HealthStatus.degraded ∧
    (fetchStandardizedData "S" (Except.error "boom") adaptOkEx 5 9).2.message =
      some "boom" ∧
    (fetchStandardizedData "S" (Except.error "boom") adaptOkEx 5 9).2.latency = 5 := by
  have hok := fetch_updates_health_and_propagates "S" (Except.ok ()) adaptOkEx 5 9
  have herr := fetch_updates_health_and_propagates "S" (Except.error "boom") adaptOkEx 5 9
  obtain ⟨-, -, -, hok4, -⟩ := hok
  obtain ⟨-, hlat, -, -, herr5⟩ := herr
  obtain ⟨h1, h2⟩ := hok4 dsX rfl
  obtain ⟨h3, h4, h5, -⟩ := herr5 "boom" rfl
  exact ⟨h1, h2, h3, h4, h5 (by decide), hlat⟩

/-- C8 counterexample: the adapters are not deterministic functions of the
raw payload alone.  `SarfCurrencyAdapter.adapt` stamps each asset with the
`Date.now()` of the call, so adapting the same payload at clock values 0 and
1 gives different datasets; `MockCommoditiesAdapter.adapt` fills the
simulated historical values from `Math.random()`, so different draws give
different datasets. -/
theorem adapters_not_pure_cex :
    sarfAdapt "Sarf-EGP-API" sarfRawEx 0 ≠ sarfAdapt "Sarf-EGP-API" sarfRawEx 1 ∧
    mockAdapt "Mock-Commodities-API" mockRawEx (fun _ _ => 0) ≠
      mockAdapt "Mock-Commodities-API" mockRawEx (fun _ _ => (1 : ℚ) / 2) := by
  constructor
  · intro h
    exact absurd (congrArg (fun d => d.assets.map (fun q => q.2.timestamp)) h)
      (by decide)
  · intro h
    have h2 := congrArg
      (fun d => (((d.assets.map (fun q => q.2.historicalData.map (fun p => p.value))).getD
        0 []).getD 0 0 : ℚ)) h
    norm_num [mockAdapt, mockAssetOf, mockIdOf, recordSet, mockRawEx,
      List.range_succ_eq_map] at h2

/-- C8 (amended): `SarfCurrencyAdapter.adapt` and
`MockCommoditiesAdapter.adapt` never mutate the raw payload (the embedding
only reads it) and are deterministic in the payload up to ambient inputs:
for equal payloads the outputs agree after erasing the clock-stamped asset
timestamps (Sarf) respectively the randomly simulated historical values
(Mock). -/
theorem adapters_deterministic_modulo_ambient :
    (∀ (n : String) (raw : SarfRawResponse) (t1 t2 : Int),
      scrubTimestamps (sarfAdapt n raw t1) = scrubTimestamps (sarfAdapt n raw t2)) ∧
    (∀ (n : String) (raw : MockCommodityRawData) (r1 r2 : Nat → Nat → ℚ),
      scrubHistoricalValues (mockAdapt n raw r1) =
        scrubHistoricalValues (mockAdapt n raw r2)) := by
  constructor
  · intro n raw t1 t2
    unfold scrubTimestamps sarfAdapt
    exact congrArg StandardizedData.mk
      (foldl_recordSet_map_congr scrubAssetTime sarfIdOf (sarfAssetOf n t1)
        (sarfAssetOf n t2) raw.rates
        (fun p _ => scrubAssetTime_sarfAssetOf n t1 t2 p) [] [] rfl)
  · intro n raw r1 r2
    unfold scrubHistoricalValues mockAdapt
    exact congrArg StandardizedData.mk
      (foldl_recordSet_map_congr scrubAssetHist mockIdOf
        (mockAssetOf n raw.timestampMs r1) (mockAssetOf n raw.timestampMs r2)
        raw.commodities.enum
        (fun q _ => scrubAssetHist_mockAssetOf n raw.timestampMs r1 r2 q) [] [] rfl)

/-- C9 counterexample: the fetch loop of `getStandardizedData` is a
sequential await loop, not a concurrent fan-out: the start time of source
B's fetch depends on the latency of the earlier source A (100ms vs 0ms), so
one source's latency does delay the start of another source's fetch. -/
theorem sequential_fetch_delays_cex :
    lookupRecord (seqFetchSchedule 0 [srcSlowA, srcNextB]) "B" ≠
      lookupRecord (seqFetchSchedule 0 [srcFastA, srcNextB]) "B" := by
  decide

/-- C9 (amended): within one aggregation cycle the non-failed sources are
fetched sequentially in configuration order: every non-failed source is
fetched regardless of the other sources' failures, and its fetch starts
only after the accumulated latency of all earlier non-failed sources. -/
theorem sequential_fetch_schedule_spec :
    (∀ (t : Int) (sources : List SourceModel),
      (seqFetchSchedule t sources).map Prod.fst = attemptedSources sources) ∧
    (∀ (t : Int) (xs : List SourceModel) (s : SourceModel) (ys : List SourceModel),
      s.status ≠ HealthStatus.failed →
      (s.name, t + nonFailedLatencySum xs) ∈ seqFetchSchedule t (xs ++ s :: ys)) := by
  constructor
  · intro t sources
    induction sources generalizing t with
    | nil => rfl
    | cons s rest ih =>
      by_cases hs : s.status = HealthStatus.failed
      · simp [seqFetchSchedule, attemptedSources, hs, ih]
      · simp [seqFetchSchedule, attemptedSources, hs, ih]
  · intro t xs s ys hs
    induction xs generalizing t with
    | nil =>
      simp [seqFetchSchedule, nonFailedLatencySum, hs]
    | cons x rest ih =>
      by_cases hx : x.status = HealthStatus.failed
      · have e1 : nonFailedLatencySum (x :: rest) = nonFailedLatencySum rest := by
          simp [nonFailedLatencySum, hx]
        have e2 : seqFetchSchedule t ((x :: rest) ++ s :: ys) =
            seqFetchSchedule t (rest ++ s :: ys) := by
          simp [seqFetchSchedule, hx]
        rw [e1, e2]
        exact ih t
      · have e1 : nonFailedLatencySum (x :: rest) =
            x.latencyMs + nonFailedLatencySum rest := by
          simp [nonFailedLatencySum, hx]
        have e2 : seqFetchSchedule t ((x :: rest) ++ s :: ys) =
            (x.name, t) :: seqFetchSchedule (t + x.latencyMs) (rest ++ s :: ys) := by
          simp [seqFetchSchedule, hx]
        have hassoc : t + (x.latencyMs + nonFailedLatencySum rest) =
            t + x.latencyMs + nonFailedLatencySum rest := by ring
        rw [e1, e2, hassoc]
        exact List.mem_cons_of_mem _ (ih (t + x.latencyMs))

theorem sequential_fetch_schedule_spec_witness :
    ("B", (100 : Int)) ∈ seqFetchSchedule 0 [srcSlowA, srcNextB] := by
  have h := sequential_fetch_schedule_spec.2 0 [srcSlowA] srcNextB [] (by decide)
  simpa [nonFailedLatencySum, srcSlowA, srcNextB] using h

/-- C10: starting from the initial state (no cache), every
`getStandardizedData` call preserves the invariant that a non-null cached
dataset holds at least one asset, and every dataset the call returns is
non-empty — in particular a stale-serve fallback never returns an empty
dataset, because the cache is only replaced by a merged result checked to
be non-empty. -/
theorem cache_nonempty_invariant :
    cacheNonempty initialOrchestratorState ∧
    ∀ (st : OrchestratorState) (now cT : Int) (sources : List SourceModel),
      cacheNonempty st →
      cacheNonempty (getStandardizedData st now cT sources).state ∧
      ∀ d, (getStandardizedData st now cT sources).result = Except.ok d →
        d.assets.length ≠ 0 := by
  constructor
  · intro d h
    simp [initialOrchestratorState] at h
  · intro st now cT sources hinv
    have hcycle : cacheNonempty (runCycle st now cT sources).state ∧
        ∀ d, (runCycle st now cT sources).result = Except.ok d →
          d.assets.length ≠ 0 := by
      by_cases hlen : (mergeData (successfulFetches sources)).assets.length = 0
      · rcases hc : st.cachedData with _ | d0
        · constructor
          · intro d hd
            simp [runCycle, hlen, hc] at hd
          · intro d hd
            simp [runCycle, hlen, hc] at hd
        · constructor
          · intro d hd
            simp [runCycle, hlen, hc] at hd
            subst hd
            exact hinv d0 hc
          · intro d hd
            simp [runCycle, hlen, hc] at hd
            subst hd
            exact hinv d0 hc
      · constructor
        · intro d hd
          simp [runCycle, hlen] at hd
          subst hd
          exact hlen
        · intro d hd
          simp [runCycle, hlen] at hd
          subst hd
          exact hlen
    rcases hc : st.cachedData with _ | d0
    · have hrc : getStandardizedData st now cT sources = runCycle st now cT sources := by
        simp [getStandardizedData, hc]
      rw [hrc]
      exact hcycle
    · by_cases hfresh : now < st.cacheExpiry
      · have hres : getStandardizedData st now cT sources =
            { result := Except.ok d0, state := st, attempted := [],
              erroredLog := false } := by
          simp [getStandardizedData, hc, hfresh]
        rw [hres]
        refine ⟨hinv, ?_⟩
        intro d hd
        simp at hd
        subst hd
        exact hinv d0 hc
      · have hrc : getStandardizedData st now cT sources = runCycle st now cT sources := by
          simp [getStandardizedData, hc, hfresh]
        rw [hrc]
        exact hcycle

theorem cache_nonempty_invariant_witness :
    cacheNonempty (getStandardizedData initialOrchestratorState 0 60000 [srcOk1]).state :=
  (cache_nonempty_invariant.2 initialOrchestratorState 0 60000 [srcOk1]
    (by intro d h; simp [initialOrchestratorState] at h)).1
